import Mathlib

/-!
Shallow embedding of the quiz web application in src/main.py.

The application keeps an in-memory registry ROOMS mapping 6-character room
codes to rooms.  A room holds a category, a fixed question list and an
insertion-ordered mapping from username to player state.  Python dicts
preserve insertion order and assignment to an existing key updates the value
in place, keeping the position; the model represents every dict as an
association list together with insertKV, which reproduces exactly that
semantics.

External effects are parameters of the embedded operations: the random room
code drawn by gen_room_code, the random 3-digit username suffix drawn in
room_join, and the question list fetched from the network in create_room are
supplied by the caller, since their values come from sources outside the
program.  Form data submitted by a client is modelled as an association list
of string pairs; FormData.get is List.lookup.
-/

namespace AiQuizWeb

/-- A fetched question as built by fetch_questions (src/main.py lines 38-42):
question text, the correct answer, and the shuffled options. -/
structure Question where
  question : String
  answer : String
  options : List String
deriving DecidableEq

/-- One parsed answer record as stored by room_submit (line 192) and
single_player_results (lines 91-96): question text, the client-supplied
correct value, the selected option, and the computed correctness flag. -/
structure AnswerEntry where
  question : String
  correct : String
  selected : String
  is_correct : Bool
deriving DecidableEq

/-- Per-player state (line 150): answers is a dict from form key (q0, q1, ...)
to an answer record; submitted starts false and is set on submission. -/
structure PlayerState where
  answers : List (String × AnswerEntry)
  submitted : Bool
deriving DecidableEq

/-- A room as stored in ROOMS (lines 118-123).  The created flag is constant
True in the source and is omitted.  The players list is in join order. -/
structure Room where
  domain : String
  questions : List Question
  players : List (String × PlayerState)
deriving DecidableEq

/-- The ROOMS registry (line 19): room code to room, in creation order. -/
abbrev Rooms := List (String × Room)

/-- Submitted form data: field name to field value, FormData.get is lookup. -/
abbrev Form := List (String × String)

/-- Python dict assignment d[k] = v: if the key is present its value is
replaced in place (position kept), otherwise the pair is appended. -/
def insertKV {α : Type} (k : String) (v : α) : List (String × α) → List (String × α)
  | [] => [(k, v)]
  | (k', v') :: rest => if k' = k then (k, v) :: rest else (k', v') :: insertKV k v rest

/-- The fixed category table CATEGORIES (lines 12-16). -/
def CATEGORIES : List (String × Nat) := [("general", 9), ("tech", 18), ("movies", 11)]

/-- Python str.split("||") on the underlying character list: greedy leftmost
scan, splitting at each non-overlapping occurrence of the two-bar separator. -/
def splitBars : List Char → List (List Char)
  | [] => [[]]
  | '|' :: '|' :: rest => [] :: splitBars rest
  | c :: rest =>
    match splitBars rest with
    | [] => [[c]]
    | p :: ps => (c :: p) :: ps

/-- The ASCII whitespace stripped by Python str.strip(). -/
def isPySpace (c : Char) : Bool :=
  c = ' ' || c = '\t' || c = '\n' || c = '\r' || c = '\x0b' || c = '\x0c'

/-- Python str.strip(): drop whitespace from both ends. -/
def pyStrip (s : String) : String :=
  ⟨((s.data.dropWhile isPySpace).reverse.dropWhile isPySpace).reverse⟩

/-- Python str.startswith(p). -/
def pyStartsWith (s p : String) : Bool := p.data.isPrefixOf s.data

/-- Lexicographic comparison of character lists by code point, the order
Python uses to compare strings. -/
def charsLt : List Char → List Char → Bool
  | _, [] => false
  | [], _ :: _ => true
  | a :: as, b :: bs => if a < b then true else if b < a then false else charsLt as bs

/-- Python string less-than. -/
def pyStrLt (a b : String) : Bool := charsLt a.data b.data

/-- val.split("||") unpacked into exactly three parts (line 88 / 189); any
other arity raises and the except branch (line 90 / 191) keeps the raw value
as the question text and sets correct and selected to the empty string. -/
def parseVal (val : String) : String × String × String :=
  match (splitBars val.data).map (fun cs => (⟨cs⟩ : String)) with
  | [q, c, s] => (q, c, s)
  | _ => (val, "", "")

/-- Build one answer record from a raw form value; correctness is exact
string equality of selected and correct (line 95 / 192). -/
def mkAnswerEntry (val : String) : AnswerEntry :=
  { question := (parseVal val).1
    correct := (parseVal val).2.1
    selected := (parseVal val).2.2
    is_correct := (parseVal val).2.2 == (parseVal val).2.1 }

/-- The form keys starting with "q", in form order (line 83 / 184). -/
def qKeys (form : Form) : List String :=
  (form.map Prod.fst).filter (fun k => pyStartsWith k "q")

/-- Ascending insertion position for the lexicographic string sort used on
form keys in single_player_results (line 83). -/
def insertStrAsc (s : String) : List String → List String
  | [] => [s]
  | t :: ts => if pyStrLt t s then t :: insertStrAsc s ts else s :: t :: ts

/-- Python sorted on a list of strings (line 83): stable, ascending;
equal strings are identical so insertion sort realises it exactly. -/
def sortStr : List String → List String
  | [] => []
  | s :: ss => insertStrAsc s (sortStr ss)

/-- The answers dict collected by room_submit (lines 183-192): iterate the
q-prefixed keys in form order, skip empty values, parse the rest. -/
def collectAnswers (form : Form) : List (String × AnswerEntry) :=
  (qKeys form).foldl
    (fun acc k =>
      match form.lookup k with
      | none => acc
      | some val => if val = "" then acc else insertKV k (mkAnswerEntry val) acc)
    []

/-- POST /single_player_results (lines 76-105).  The client-declared
total_questions (parsed from the hidden form field, line 81) is a parameter.
Returns the answer records in sorted key order, the score, and the total. -/
def single_player_results (total_questions : Nat) (form : Form) :
    List AnswerEntry × Nat × Nat :=
  let answers := (sortStr (qKeys form)).filterMap
    (fun k =>
      match form.lookup k with
      | none => none
      | some val => if val = "" then none else some (mkAnswerEntry val))
  let score := (answers.filter (fun a => a.is_correct)).length
  (answers, score, total_questions)

/-- POST /create_room (lines 112-125).  The generated code (gen_room_code)
and the fetched questions are parameters coming from outside.  The room is
stored with ROOMS[code] = ... with no collision check; the redirect carries
the code, returned here alongside the updated registry. -/
def create_room (rooms : Rooms) (code : String) (domain : String)
    (questions : List Question) : Rooms × String :=
  let dom := if (CATEGORIES.lookup domain).isSome then domain else "general"
  (insertKV code { domain := dom, questions := questions, players := [] } rooms, code)

/-- Outcome of GET /room/{code} (lines 127-138). -/
inductive PageResult where
  | invalidRoom
  | page (domain : String) (question_count : Nat)
deriving DecidableEq

/-- GET /room/{code} (lines 127-138): pure lookup, renders an error page for
an unknown code, otherwise the join page with domain and question count. -/
def room_join_page (rooms : Rooms) (code : String) : PageResult :=
  match rooms.lookup code with
  | none => PageResult.invalidRoom
  | some room => PageResult.page room.domain room.questions.length

/-- Outcome of POST /room/{code}/join (lines 140-152). -/
inductive JoinResult where
  | invalidRoom
  | ok (username : String)
deriving DecidableEq

/-- POST /room/{code}/join (lines 140-152).  The username is trimmed and
defaulted to "Player"; if it is already a player key, a random 3-digit
suffix (the parameter suffix) is appended once, with no freshness loop.
The player is stored with empty answers and submitted = false. -/
def room_join (rooms : Rooms) (code : String) (username : String)
    (suffix : String) : Rooms × JoinResult :=
  match rooms.lookup code with
  | none => (rooms, JoinResult.invalidRoom)
  | some room =>
    let uname0 := if pyStrip username = "" then "Player" else pyStrip username
    let uname := if (room.players.lookup uname0).isSome
      then uname0 ++ "_" ++ suffix else uname0
    let room' := { room with
      players := insertKV uname { answers := [], submitted := false } room.players }
    (insertKV code room' rooms, JoinResult.ok uname)

/-- Outcome of POST /room/{code}/submit (lines 172-196). -/
inductive SubmitResult where
  | invalidRoom
  | invalidPlayer
  | ok (username : String)
deriving DecidableEq

/-- In-place update of one player value, keeping the dict position
(lines 193-194 mutate the existing player record). -/
def setPlayer (players : List (String × PlayerState)) (u : String)
    (ps : PlayerState) : List (String × PlayerState) :=
  players.map (fun p => if p.1 = u then (p.1, ps) else p)

/-- POST /room/{code}/submit (lines 172-196).  Reads username from the form;
unknown code renders the error page, unknown (or absent) username redirects
to the join page, both without touching the registry.  Otherwise the player
answers are overwritten with the collected q-field records and submitted is
set to true. -/
def room_submit (rooms : Rooms) (code : String) (form : Form) :
    Rooms × SubmitResult :=
  match rooms.lookup code with
  | none => (rooms, SubmitResult.invalidRoom)
  | some room =>
    match form.lookup "username" with
    | none => (rooms, SubmitResult.invalidPlayer)
    | some username =>
      if (room.players.lookup username).isSome then
        let room' := { room with
          players := setPlayer room.players username
            { answers := collectAnswers form, submitted := true } }
        (insertKV code room' rooms, SubmitResult.ok username)
      else (rooms, SubmitResult.invalidPlayer)

/-- One leaderboard row (line 209): username, score, submitted flag. -/
structure LBEntry where
  username : String
  score : Nat
  submitted : Bool
deriving DecidableEq

/-- The per-player score (line 207): the number of answer records in the
stored answers dict whose is_correct flag is true. -/
def countCorrect (ansmap : List (String × AnswerEntry)) : Nat :=
  (ansmap.filter (fun p => p.2.is_correct)).length

/-- The unsorted leaderboard rows in join order (lines 204-209). -/
def joinOrderEntries (room : Room) : List LBEntry :=
  room.players.map (fun p =>
    { username := p.1, score := countCorrect p.2.answers, submitted := p.2.submitted })

/-- Stable descending insertion: the new element is placed before the first
element whose score is not larger, so among equal scores the element coming
from earlier in the input stays first. -/
def insertDesc (e : LBEntry) : List LBEntry → List LBEntry
  | [] => [e]
  | f :: fs => if f.score ≤ e.score then e :: f :: fs else f :: insertDesc e fs

/-- Python sorted(players, key=score, reverse=True) (line 211): a stable
sort by score descending, realised by stable insertion. -/
def sortDesc : List LBEntry → List LBEntry
  | [] => []
  | e :: es => insertDesc e (sortDesc es)

/-- The sorted leaderboard of a room (lines 204-211). -/
def leaderboard (room : Room) : List LBEntry :=
  sortDesc (joinOrderEntries room)

/-- The detailed answer list for one present player (lines 216-225): one
entry per question index, the stored record when the player answered the
index, otherwise a placeholder exposing the actual correct answer with an
empty selection marked incorrect. -/
def playerDetail (questions : List Question) (ps : PlayerState) : List AnswerEntry :=
  questions.enum.map (fun iq =>
    match ps.answers.lookup ("q" ++ toString iq.1) with
    | some a => a
    | none =>
      { question := iq.2.question, correct := iq.2.answer
        selected := "", is_correct := false })

/-- The details section of the results page (lines 212-225): an unset or
empty username, or a username that is not a player key, yields no details
at all; only a present player gets the per-index list. -/
def userDetails (room : Room) (username : Option String) : List AnswerEntry :=
  match (match username with
         | none => none
         | some u => if u = "" then none else room.players.lookup u) with
  | some ps => playerDetail room.questions ps
  | none => []

/-- Outcome of GET /room/{code}/results (lines 198-233). -/
inductive ResultsPage where
  | invalidRoom
  | page (players : List LBEntry) (details : List AnswerEntry) (total_questions : Nat)
deriving DecidableEq

/-- GET /room/{code}/results (lines 198-233): read-only; renders the sorted
leaderboard, the requested player details and the question count. -/
def room_results (rooms : Rooms) (code : String) (username : Option String) :
    ResultsPage :=
  match rooms.lookup code with
  | none => ResultsPage.invalidRoom
  | some room =>
    ResultsPage.page (leaderboard room) (userDetails room username)
      room.questions.length


/-! ### Dictionary lemmas -/

theorem lookup_cons_eq {a : Type} (k : String) (v : a) (m : List (String × a)) :
    ((k, v) :: m).lookup k = some v := by simp [List.lookup]

theorem lookup_cons_ne {a : Type} (k k1 : String) (v : a) (m : List (String × a))
    (h : k ≠ k1) : ((k1, v) :: m).lookup k = m.lookup k := by
  simp only [List.lookup]
  rw [beq_eq_false_iff_ne.mpr h]

theorem insertKV_cons_eq {a : Type} (k : String) (v v1 : a) (m : List (String × a)) :
    insertKV k v ((k, v1) :: m) = (k, v) :: m := by simp [insertKV]

theorem insertKV_cons_ne {a : Type} (k k1 : String) (v v1 : a) (m : List (String × a))
    (h : k1 ≠ k) : insertKV k v ((k1, v1) :: m) = (k1, v1) :: insertKV k v m := by
  simp [insertKV, h]

theorem lookup_insertKV_self {a : Type} (k : String) (v : a) (m : List (String × a)) :
    (insertKV k v m).lookup k = some v := by
  induction m with
  | nil => simp [insertKV, List.lookup]
  | cons p rest ih =>
    obtain ⟨k1, v1⟩ := p
    by_cases h : k1 = k
    · subst h; rw [insertKV_cons_eq, lookup_cons_eq]
    · rw [insertKV_cons_ne k k1 v v1 rest h, lookup_cons_ne k k1 v1 _ (Ne.symm h)]
      exact ih

theorem lookup_insertKV_ne {a : Type} (k k2 : String) (v : a) (m : List (String × a))
    (h : k2 ≠ k) : (insertKV k v m).lookup k2 = m.lookup k2 := by
  induction m with
  | nil =>
    rw [show insertKV k v ([] : List (String × a)) = [(k, v)] from rfl,
      lookup_cons_ne k2 k v [] h]
  | cons p rest ih =>
    obtain ⟨k1, v1⟩ := p
    by_cases h1 : k1 = k
    · subst h1
      rw [insertKV_cons_eq, lookup_cons_ne k2 k1 v _ h, lookup_cons_ne k2 k1 v1 _ h]
    · rw [insertKV_cons_ne k k1 v v1 rest h1]
      by_cases h2 : k2 = k1
      · subst h2; rw [lookup_cons_eq, lookup_cons_eq]
      · rw [lookup_cons_ne k2 k1 v1 _ h2, lookup_cons_ne k2 k1 v1 _ h2, ih]

theorem length_insertKV_of_none {a : Type} (k : String) (v : a) (m : List (String × a))
    (h : m.lookup k = none) : (insertKV k v m).length = m.length + 1 := by
  induction m with
  | nil => simp [insertKV]
  | cons p rest ih =>
    obtain ⟨k1, v1⟩ := p
    by_cases h1 : k1 = k
    · subst h1; rw [lookup_cons_eq] at h; cases h
    · rw [lookup_cons_ne k k1 v1 _ (Ne.symm h1)] at h
      rw [insertKV_cons_ne k k1 v v1 rest h1]
      simp [ih h]

theorem length_insertKV_of_isSome {a : Type} (k : String) (v : a) (m : List (String × a))
    (h : (m.lookup k).isSome) : (insertKV k v m).length = m.length := by
  induction m with
  | nil => simp [List.lookup] at h
  | cons p rest ih =>
    obtain ⟨k1, v1⟩ := p
    by_cases h1 : k1 = k
    · subst h1; rw [insertKV_cons_eq]; rfl
    · rw [lookup_cons_ne k k1 v1 _ (Ne.symm h1)] at h
      rw [insertKV_cons_ne k k1 v v1 rest h1]
      simp [ih h]

theorem mem_insertKV {a : Type} (k : String) (v : a) (m : List (String × a)) (x : String × a)
    (h : x ∈ insertKV k v m) : x = (k, v) ∨ x ∈ m := by
  induction m with
  | nil => simp [insertKV] at h; simp [h]
  | cons p rest ih =>
    obtain ⟨k1, v1⟩ := p
    by_cases h1 : k1 = k
    · subst h1; rw [insertKV_cons_eq] at h
      rcases List.mem_cons.mp h with h2 | h2
      · left; exact h2
      · right; exact List.mem_cons_of_mem _ h2
    · rw [insertKV_cons_ne k k1 v v1 rest h1] at h
      rcases List.mem_cons.mp h with h2 | h2
      · right; exact h2 ▸ List.mem_cons_self _ _
      · rcases ih h2 with h3 | h3
        · left; exact h3
        · right; exact List.mem_cons_of_mem _ h3

/-! ### setPlayer lemmas -/

theorem setPlayer_cons_eq (k1 : String) (v1 ps : PlayerState)
    (rest : List (String × PlayerState)) :
    setPlayer ((k1, v1) :: rest) k1 ps = (k1, ps) :: setPlayer rest k1 ps := by
  simp [setPlayer]

theorem setPlayer_cons_ne (k1 u : String) (v1 ps : PlayerState)
    (rest : List (String × PlayerState)) (h : k1 ≠ u) :
    setPlayer ((k1, v1) :: rest) u ps = (k1, v1) :: setPlayer rest u ps := by
  simp [setPlayer, h]

theorem lookup_setPlayer_self (players : List (String × PlayerState)) (u : String)
    (ps : PlayerState) (h : (players.lookup u).isSome) :
    (setPlayer players u ps).lookup u = some ps := by
  induction players with
  | nil => simp [List.lookup] at h
  | cons p rest ih =>
    obtain ⟨k1, v1⟩ := p
    by_cases h1 : k1 = u
    · subst h1; rw [setPlayer_cons_eq, lookup_cons_eq]
    · rw [lookup_cons_ne u k1 v1 _ (Ne.symm h1)] at h
      rw [setPlayer_cons_ne k1 u v1 ps rest h1, lookup_cons_ne u k1 v1 _ (Ne.symm h1)]
      exact ih h

theorem lookup_setPlayer_ne (players : List (String × PlayerState)) (u u2 : String)
    (ps : PlayerState) (h : u2 ≠ u) :
    (setPlayer players u ps).lookup u2 = players.lookup u2 := by
  induction players with
  | nil => simp [setPlayer]
  | cons p rest ih =>
    obtain ⟨k1, v1⟩ := p
    by_cases h1 : k1 = u
    · subst h1
      rw [setPlayer_cons_eq, lookup_cons_ne u2 k1 ps _ h, lookup_cons_ne u2 k1 v1 _ h]
      exact ih
    · rw [setPlayer_cons_ne k1 u v1 ps rest h1]
      by_cases h2 : u2 = k1
      · subst h2; rw [lookup_cons_eq, lookup_cons_eq]
      · rw [lookup_cons_ne u2 k1 v1 _ h2, lookup_cons_ne u2 k1 v1 _ h2]
        exact ih


/-! ### Stable descending sort lemmas -/

theorem mem_insertDesc (e : LBEntry) (l : List LBEntry) (g : LBEntry)
    (h : g ∈ insertDesc e l) : g = e ∨ g ∈ l := by
  induction l with
  | nil => simp [insertDesc] at h; simp [h]
  | cons f fs ih =>
    by_cases hc : f.score ≤ e.score
    · rw [insertDesc, if_pos hc] at h
      exact List.mem_cons.mp h
    · rw [insertDesc, if_neg hc] at h
      rcases List.mem_cons.mp h with h2 | h2
      · right; exact h2 ▸ List.mem_cons_self _ _
      · rcases ih h2 with h3 | h3
        · left; exact h3
        · right; exact List.mem_cons_of_mem _ h3

theorem insertDesc_pairwise (e : LBEntry) (l : List LBEntry)
    (h : l.Pairwise (fun a b => b.score ≤ a.score)) :
    (insertDesc e l).Pairwise (fun a b => b.score ≤ a.score) := by
  induction l with
  | nil => simp [insertDesc]
  | cons f fs ih =>
    rw [List.pairwise_cons] at h
    by_cases hc : f.score ≤ e.score
    · rw [insertDesc, if_pos hc]
      refine List.pairwise_cons.mpr ⟨?_, List.pairwise_cons.mpr h⟩
      intro g hg
      rcases List.mem_cons.mp hg with hg | hg
      · exact hg ▸ hc
      · exact le_trans (h.1 g hg) hc
    · rw [insertDesc, if_neg hc]
      refine List.pairwise_cons.mpr ⟨?_, ih h.2⟩
      intro g hg
      rcases mem_insertDesc e fs g hg with hg2 | hg2
      · exact hg2 ▸ le_of_lt (lt_of_not_le hc)
      · exact h.1 g hg2

theorem sortDesc_pairwise (l : List LBEntry) :
    (sortDesc l).Pairwise (fun a b => b.score ≤ a.score) := by
  induction l with
  | nil => simp [sortDesc]
  | cons e es ih => exact insertDesc_pairwise e (sortDesc es) ih

theorem insertDesc_perm (e : LBEntry) (l : List LBEntry) :
    (insertDesc e l).Perm (e :: l) := by
  induction l with
  | nil => simp [insertDesc]
  | cons f fs ih =>
    by_cases hc : f.score ≤ e.score
    · rw [insertDesc, if_pos hc]
    · rw [insertDesc, if_neg hc]
      exact ((ih.cons f).trans (List.Perm.swap e f fs)).symm.symm

theorem sortDesc_perm (l : List LBEntry) : (sortDesc l).Perm l := by
  induction l with
  | nil => simp [sortDesc]
  | cons e es ih =>
    exact (insertDesc_perm e (sortDesc es)).trans (ih.cons e)

theorem filter_insertDesc_of_score_eq (e : LBEntry) (l : List LBEntry) (s : Nat)
    (h : e.score = s) :
    (insertDesc e l).filter (fun f => f.score == s)
      = e :: l.filter (fun f => f.score == s) := by
  induction l with
  | nil => simp [insertDesc, h]
  | cons f fs ih =>
    by_cases hc : f.score ≤ e.score
    · rw [insertDesc, if_pos hc]
      simp [h]
    · rw [insertDesc, if_neg hc]
      have hf : (f.score == s) = false := by
        have : f.score ≠ s := by
          intro he
          exact hc (he ▸ h ▸ le_refl _)
        simp [this]
      rw [List.filter_cons, hf, List.filter_cons, hf]
      simpa using ih

theorem filter_insertDesc_of_score_ne (e : LBEntry) (l : List LBEntry) (s : Nat)
    (h : e.score ≠ s) :
    (insertDesc e l).filter (fun f => f.score == s)
      = l.filter (fun f => f.score == s) := by
  induction l with
  | nil => simp [insertDesc, h]
  | cons f fs ih =>
    by_cases hc : f.score ≤ e.score
    · rw [insertDesc, if_pos hc]
      rw [List.filter_cons]
      have he : (e.score == s) = false := by simp [h]
      rw [he]
      simp
    · rw [insertDesc, if_neg hc]
      rw [List.filter_cons, List.filter_cons]
      cases hf : (f.score == s) <;> simp [ih]

theorem sortDesc_filter_score (l : List LBEntry) (s : Nat) :
    (sortDesc l).filter (fun f => f.score == s) = l.filter (fun f => f.score == s) := by
  induction l with
  | nil => simp [sortDesc]
  | cons e es ih =>
    rw [sortDesc]
    by_cases h : e.score = s
    · rw [filter_insertDesc_of_score_eq e (sortDesc es) s h, ih, List.filter_cons]
      simp [h]
    · rw [filter_insertDesc_of_score_ne e (sortDesc es) s h, ih, List.filter_cons]
      have he : (e.score == s) = false := by simp [h]
      rw [he]
      simp


/-! ### Answer-record shape lemmas -/

theorem mkAnswerEntry_is_correct_eq (val : String) :
    (mkAnswerEntry val).is_correct
      = ((mkAnswerEntry val).selected == (mkAnswerEntry val).correct) := rfl

theorem mkAnswerEntry_empty_selected (val : String)
    (h : (mkAnswerEntry val).selected = "") :
    (mkAnswerEntry val).is_correct = ((mkAnswerEntry val).correct == "") := by
  rw [mkAnswerEntry_is_correct_eq, h]
  cases hc : ((mkAnswerEntry val).correct == "")
  · simp_all [BEq.comm]
  · simp_all [BEq.comm]

theorem collectAnswers_entry_shape (form : Form) (p : String × AnswerEntry)
    (h : p ∈ collectAnswers form) : ∃ val, p.2 = mkAnswerEntry val := by
  rw [collectAnswers] at h
  suffices H : ∀ (keys : List String) (acc : List (String × AnswerEntry)),
      (∀ q ∈ acc, ∃ val, q.2 = mkAnswerEntry val) →
      p ∈ keys.foldl (fun acc k =>
        match form.lookup k with
        | none => acc
        | some val => if val = "" then acc else insertKV k (mkAnswerEntry val) acc) acc →
      ∃ val, p.2 = mkAnswerEntry val by
    exact H (qKeys form) [] (by intro q hq; cases hq) h
  intro keys
  induction keys with
  | nil =>
    intro acc hacc hp
    exact hacc p hp
  | cons k ks ih =>
    intro acc hacc hp
    rw [List.foldl_cons] at hp
    refine ih _ ?_ hp
    cases hl : form.lookup k with
    | none => simpa [hl] using hacc
    | some val =>
      by_cases hv : val = ""
      · simpa [hl, hv] using hacc
      · intro q hq
        simp only [hl, hv, if_neg hv] at hq
        rcases mem_insertKV k (mkAnswerEntry val) acc q hq with h2 | h2
        · exact ⟨val, by rw [h2]⟩
        · exact hacc q h2

theorem single_answers_entry_shape (total : Nat) (form : Form) (a : AnswerEntry)
    (h : a ∈ (single_player_results total form).1) : ∃ val, a = mkAnswerEntry val := by
  simp only [single_player_results] at h
  rcases List.mem_filterMap.mp h with ⟨k, hk, ha⟩
  cases hl : form.lookup k with
  | none => rw [hl] at ha; cases ha
  | some val =>
    rw [hl] at ha
    by_cases hv : val = ""
    · simp [hv] at ha
    · simp [hv] at ha
      exact ⟨val, ha.symm⟩


/-! ### Operation step lemmas -/

/-- The player state stored by a successful submission of this form. -/
def submittedPS (form : Form) : PlayerState :=
  { answers := collectAnswers form, submitted := true }

/-- A successful submission: the room found and the username a player key
produce exactly the registry update of lines 183-196. -/
theorem room_submit_ok (rooms : Rooms) (code : String) (form : Form) (room : Room)
    (u : String) (hroom : rooms.lookup code = some room)
    (hu : form.lookup "username" = some u)
    (hp : (room.players.lookup u).isSome) :
    room_submit rooms code form
      = (insertKV code
          { room with players := setPlayer room.players u (submittedPS form) } rooms,
         SubmitResult.ok u) := by
  simp only [room_submit, hroom, hu, hp, if_true, submittedPS]

/-! ### Concrete fixtures -/

/-- A sample one-question room fixture. -/
def sampleQ : Question := { question := "Q1", answer := "A", options := ["A", "B"] }

/-- The initial state of a player who just joined. -/
def freshPS : PlayerState := { answers := [], submitted := false }

/-- A room with the single player alice, not yet submitted. -/
def sampleRoom : Room :=
  { domain := "general", questions := [sampleQ], players := [("alice", freshPS)] }

/-- A registry holding sampleRoom under code R. -/
def sampleRooms : Rooms := [("R", sampleRoom)]

/-- A stored answer record that is correct. -/
def tieAns : AnswerEntry :=
  { question := "Q1", correct := "A", selected := "A", is_correct := true }

/-- A player state with one correct stored answer. -/
def tiePS : PlayerState := { answers := [("q0", tieAns)], submitted := true }

/-- Three players A, B, C joined in this order, all with the same score. -/
def tieRoom : Room :=
  { domain := "general", questions := [sampleQ]
    players := [("A", tiePS), ("B", tiePS), ("C", tiePS)] }

/-- A registry holding tieRoom under code T. -/
def tieRooms : Rooms := [("T", tieRoom)]

/-- A room with no players yet, used for the join scenarios. -/
def emptyRoom : Room := { domain := "general", questions := [sampleQ], players := [] }

/-- A registry holding emptyRoom under code J. -/
def emptyRooms : Rooms := [("J", emptyRoom)]


/-! ### C1: room creation and code collisions -/

/-- The room stored for a fresh creation with a validated category. -/
def freshRoom (domain : String) (questions : List Question) : Room :=
  { domain := if (CATEGORIES.lookup domain).isSome then domain else "general"
    questions := questions, players := [] }

/-- C1 counterexample: create_room has no regenerate-on-collision loop; when
the generated code AAAAAA is already registered, the second creation
replaces the existing room, leaving one room where the claim promises two
distinct rooms. -/
theorem create_room_collision_overwrites :
    (create_room (create_room [] "AAAAAA" "general" [sampleQ]).1 "AAAAAA" "general" []).1
      = [("AAAAAA", freshRoom "general" [])]
    ∧ (create_room (create_room [] "AAAAAA" "general" [sampleQ]).1
        "AAAAAA" "general" []).1.length = 1 := by
  constructor
  · decide
  · decide

/-- C1 amended: create_room stores the room under the generated code
unconditionally with no collision check: the code maps to the new empty
room, all other codes are untouched, and the registry grows by one exactly
when the generated code was fresh, keeping its size (the old room being
replaced) when the code was already registered. -/
theorem create_room_insert_semantics (rooms : Rooms) (code domain : String)
    (qs : List Question) :
    ((create_room rooms code domain qs).1.lookup code = some (freshRoom domain qs))
    ∧ (∀ c, c ≠ code → (create_room rooms code domain qs).1.lookup c = rooms.lookup c)
    ∧ (rooms.lookup code = none →
        (create_room rooms code domain qs).1.length = rooms.length + 1)
    ∧ ((rooms.lookup code).isSome →
        (create_room rooms code domain qs).1.length = rooms.length) :=
  ⟨lookup_insertKV_self code (freshRoom domain qs) rooms,
   fun c hc => lookup_insertKV_ne code c (freshRoom domain qs) rooms hc,
   fun h => length_insertKV_of_none code (freshRoom domain qs) rooms h,
   fun h => length_insertKV_of_isSome code (freshRoom domain qs) rooms h⟩

/-- Witness for the amended C1 at a concrete creation. -/
theorem create_room_insert_semantics_witness :
    ("BBBBBB" : String) ≠ "AAAAAA"
    ∧ (create_room [] "AAAAAA" "general" [sampleQ]).1.lookup "BBBBBB"
        = ([] : Rooms).lookup "BBBBBB"
    ∧ ([] : Rooms).lookup "AAAAAA" = none
    ∧ (create_room [] "AAAAAA" "general" [sampleQ]).1.length = ([] : Rooms).length + 1 :=
  ⟨by decide,
   (create_room_insert_semantics [] "AAAAAA" "general" [sampleQ]).2.1 "BBBBBB" (by decide),
   rfl,
   (create_room_insert_semantics [] "AAAAAA" "general" [sampleQ]).2.2.1 rfl⟩

/-! ### C2: details for a username that is not a player -/

/-- C2 counterexample: in a room with one question and no players, the
results page for the non-player username bob carries an empty details list,
not one placeholder entry per question. -/
theorem nonplayer_details_empty_cex :
    room_results [("ROOM01", emptyRoom)] "ROOM01" (some "bob")
      = ResultsPage.page [] [] 1 := by decide

/-- C2 amended: the results page never fails for an existing room, but a
username that is unset, empty, or not a key of the player mapping yields an
empty details list; the per-question placeholder synthesis happens only for
a present player. -/
theorem nonplayer_details_empty (rooms : Rooms) (code : String) (room : Room)
    (username : Option String)
    (hroom : rooms.lookup code = some room)
    (habsent : ∀ u, username = some u → u ≠ "" → room.players.lookup u = none) :
    room_results rooms code username
      = ResultsPage.page (leaderboard room) [] room.questions.length := by
  have hud : userDetails room username = [] := by
    cases username with
    | none => rfl
    | some u =>
      by_cases hu : u = ""
      · simp [userDetails, hu]
      · simp [userDetails, hu, habsent u rfl hu]
  simp only [room_results, hroom, hud]

/-- Witness for the amended C2: bob is not a player of sampleRoom. -/
theorem nonplayer_details_empty_witness :
    sampleRooms.lookup "R" = some sampleRoom
    ∧ room_results sampleRooms "R" (some "bob")
        = ResultsPage.page (leaderboard sampleRoom) [] sampleRoom.questions.length :=
  ⟨by decide,
   nonplayer_details_empty sampleRooms "R" sampleRoom (some "bob") (by decide)
     (by intro u hu hne; rw [← Option.some.inj hu]; decide)⟩

/-! ### C3: leaderboard sortedness and stability -/

/-- C3: for an existing room the results page carries the leaderboard, the
leaderboard is sorted by score descending, and the sort is stable: for
every score value the players having that score appear in exactly the order
of the join-ordered player list. -/
theorem leaderboard_sorted_and_stable (rooms : Rooms) (code : String) (room : Room)
    (username : Option String)
    (hroom : rooms.lookup code = some room) :
    room_results rooms code username
      = ResultsPage.page (leaderboard room) (userDetails room username)
          room.questions.length
    ∧ (leaderboard room).Pairwise (fun a b => b.score ≤ a.score)
    ∧ (∀ s, (leaderboard room).filter (fun e => e.score == s)
        = (joinOrderEntries room).filter (fun e => e.score == s)) :=
  ⟨by simp only [room_results, hroom],
   sortDesc_pairwise (joinOrderEntries room),
   fun s => sortDesc_filter_score (joinOrderEntries room) s⟩

/-- Witness for C3: players A, B, C joined in that order and tie on score;
the leaderboard lists them as A, B, C. -/
theorem leaderboard_sorted_and_stable_witness :
    tieRooms.lookup "T" = some tieRoom
    ∧ room_results tieRooms "T" none
        = ResultsPage.page (leaderboard tieRoom) (userDetails tieRoom none)
            tieRoom.questions.length
    ∧ leaderboard tieRoom
        = [{ username := "A", score := 1, submitted := true },
           { username := "B", score := 1, submitted := true },
           { username := "C", score := 1, submitted := true }] :=
  ⟨by decide,
   (leaderboard_sorted_and_stable tieRooms "T" tieRoom none (by decide)).1,
   by decide⟩


/-! ### C4: correctness flag semantics -/

/-- The answer record stored for the malformed room submission below. -/
def emptyBothAns : AnswerEntry :=
  { question := "Q1", correct := "", selected := "", is_correct := true }

/-- C4 counterexample: submitting the value Q1|| || || (three parts, with
correct and selected both empty) stores an entry whose selection is empty
yet whose is_correct flag is true, because the parsed correct value is also
empty; an empty selection is not always marked incorrect. -/
theorem empty_selection_marked_correct_cex :
    ((room_submit sampleRooms "R" [("username", "alice"), ("q0", "Q1||||")]).1.lookup
        "R").map (fun r => r.players.lookup "alice")
      = some (some { answers := [("q0", emptyBothAns)], submitted := true })
    ∧ emptyBothAns.selected = "" ∧ emptyBothAns.is_correct = true := by
  refine ⟨by decide, rfl, rfl⟩

/-- C4 amended: every stored answer entry, in a room submission or in
single-player results, has is_correct exactly when selected is
case-sensitively equal to correct; an empty selection is marked incorrect
precisely when the parsed correct value is nonempty, and is marked correct
when the parsed correct value is itself empty. -/
theorem is_correct_iff_selected_eq_correct (total : Nat) (form : Form) :
    (∀ p : String × AnswerEntry, p ∈ collectAnswers form →
      p.2.is_correct = (p.2.selected == p.2.correct)
      ∧ (p.2.selected = "" → p.2.is_correct = (p.2.correct == "")))
    ∧ (∀ a ∈ (single_player_results total form).1,
      a.is_correct = (a.selected == a.correct)
      ∧ (a.selected = "" → a.is_correct = (a.correct == ""))) := by
  constructor
  · intro p hp
    obtain ⟨val, hv⟩ := collectAnswers_entry_shape form p hp
    rw [hv]
    exact ⟨mkAnswerEntry_is_correct_eq val, fun h => mkAnswerEntry_empty_selected val h⟩
  · intro a ha
    obtain ⟨val, hv⟩ := single_answers_entry_shape total form a ha
    rw [hv]
    exact ⟨mkAnswerEntry_is_correct_eq val, fun h => mkAnswerEntry_empty_selected val h⟩

/-- Witness for the amended C4 at a concrete stored entry. -/
theorem is_correct_iff_selected_eq_correct_witness :
    (("q0", mkAnswerEntry "Q1||A||B")
        ∈ collectAnswers [("username", "alice"), ("q0", "Q1||A||B")])
    ∧ (mkAnswerEntry "Q1||A||B").is_correct
        = ((mkAnswerEntry "Q1||A||B").selected == (mkAnswerEntry "Q1||A||B").correct) :=
  ⟨by decide,
   ((is_correct_iff_selected_eq_correct 0 [("username", "alice"), ("q0", "Q1||A||B")]).1
     ("q0", mkAnswerEntry "Q1||A||B") (by decide)).1⟩

/-! ### C5: re-submission overwrites -/

/-- C5: submitting twice is never rejected and the player state after the
second submission is exactly the state produced by the second submission
alone: the answers mapping is wholly overwritten and submitted stays true. -/
theorem resubmit_last_write_wins (rooms : Rooms) (code : String) (form1 form2 : Form)
    (room : Room) (u : String)
    (hroom : rooms.lookup code = some room)
    (hu1 : form1.lookup "username" = some u)
    (hu2 : form2.lookup "username" = some u)
    (hp : (room.players.lookup u).isSome) :
    (room_submit (room_submit rooms code form1).1 code form2).2 = SubmitResult.ok u
    ∧ ((room_submit (room_submit rooms code form1).1 code form2).1.lookup code).map
        (fun r => r.players.lookup u)
      = ((room_submit rooms code form2).1.lookup code).map (fun r => r.players.lookup u)
    ∧ ((room_submit (room_submit rooms code form1).1 code form2).1.lookup code).map
        (fun r => r.players.lookup u)
      = some (some (submittedPS form2)) := by
  have h1 := room_submit_ok rooms code form1 room u hroom hu1 hp
  have hl1 : (room_submit rooms code form1).1.lookup code
      = some { room with players := setPlayer room.players u (submittedPS form1) } := by
    rw [h1]
    exact lookup_insertKV_self code _ rooms
  have hp1 : (({ room with players := setPlayer room.players u (submittedPS form1) }
      : Room).players.lookup u).isSome := by
    show ((setPlayer room.players u (submittedPS form1)).lookup u).isSome
    rw [lookup_setPlayer_self room.players u (submittedPS form1) hp]
    rfl
  have h2 := room_submit_ok (room_submit rooms code form1).1 code form2 _ u hl1 hu2 hp1
  have h3 := room_submit_ok rooms code form2 room u hroom hu2 hp
  refine ⟨by rw [h2], ?_, ?_⟩
  · rw [h2, h3]
    show (List.lookup code (insertKV code _ _)).map _
      = (List.lookup code (insertKV code _ _)).map _
    rw [lookup_insertKV_self, lookup_insertKV_self]
    show some ((setPlayer (setPlayer room.players u (submittedPS form1)) u
        (submittedPS form2)).lookup u)
      = some ((setPlayer room.players u (submittedPS form2)).lookup u)
    rw [lookup_setPlayer_self _ u _ hp1, lookup_setPlayer_self _ u _ hp]
  · rw [h2]
    show (List.lookup code (insertKV code _ _)).map _ = _
    rw [lookup_insertKV_self]
    show some ((setPlayer (setPlayer room.players u (submittedPS form1)) u
        (submittedPS form2)).lookup u) = _
    rw [lookup_setPlayer_self _ u _ hp1]

/-- Witness for C5 at concrete submissions of alice. -/
theorem resubmit_last_write_wins_witness :
    sampleRooms.lookup "R" = some sampleRoom
    ∧ ([("username", "alice"), ("q0", "Q1||A||B")] : Form).lookup "username"
        = some "alice"
    ∧ ([("username", "alice"), ("q0", "Q1||A||A")] : Form).lookup "username"
        = some "alice"
    ∧ (sampleRoom.players.lookup "alice").isSome
    ∧ (room_submit (room_submit sampleRooms "R" [("username", "alice"), ("q0", "Q1||A||B")]).1
        "R" [("username", "alice"), ("q0", "Q1||A||A")]).2 = SubmitResult.ok "alice" :=
  ⟨by decide, by decide, by decide, by decide,
   (resubmit_last_write_wins sampleRooms "R"
     [("username", "alice"), ("q0", "Q1||A||B")]
     [("username", "alice"), ("q0", "Q1||A||A")]
     sampleRoom "alice" (by decide) (by decide) (by decide) (by decide)).1⟩


/-! ### C6: duplicate usernames get a suffixed name -/

/-- Appending the underscore and a suffix always yields a longer, hence
different, username. -/
theorem suffixed_name_ne (name suffix : String) : name ++ "_" ++ suffix ≠ name := by
  intro h
  have hlen := congrArg String.length h
  rw [String.length_append, String.length_append] at hlen
  have h1 : ("_" : String).length = 1 := rfl
  omega

/-- C6: joining twice with the same (already trimmed, nonempty) name: the
first join stores the name itself, the second stores the name with an
underscore and the random 3-digit suffix appended, a different key, so both
players are registered and the second stored name matches name_DDD. -/
theorem join_duplicate_name_suffixed (rooms : Rooms) (code : String) (room : Room)
    (name suffix1 suffix2 : String)
    (hroom : rooms.lookup code = some room)
    (htrim : pyStrip name = name) (hne : name ≠ "")
    (hfresh : room.players.lookup name = none)
    (hfresh2 : room.players.lookup (name ++ "_" ++ suffix2) = none)
    (hdigits : suffix2.length = 3 ∧ suffix2.data.all Char.isDigit) :
    (room_join rooms code name suffix1).2 = JoinResult.ok name
    ∧ (room_join (room_join rooms code name suffix1).1 code name suffix2).2
        = JoinResult.ok (name ++ "_" ++ suffix2)
    ∧ name ++ "_" ++ suffix2 ≠ name
    ∧ (∃ suf, name ++ "_" ++ suffix2 = name ++ "_" ++ suf ∧ suf.length = 3
        ∧ suf.data.all Char.isDigit)
    ∧ ((room_join (room_join rooms code name suffix1).1 code name suffix2).1.lookup
          code).map (fun r =>
        (r.players.lookup name, r.players.lookup (name ++ "_" ++ suffix2)))
      = some (some freshPS, some freshPS)
    ∧ ((room_join (room_join rooms code name suffix1).1 code name suffix2).1.lookup
          code).map (fun r => r.players.length)
      = some (room.players.length + 2) := by
  have e0 : (if pyStrip name = "" then "Player" else pyStrip name) = name := by
    rw [htrim, if_neg hne]
  have h1 : room_join rooms code name suffix1 = (insertKV code { room with players := insertKV name freshPS room.players } rooms, JoinResult.ok name) := by
    simp only [room_join, hroom, e0, hfresh, Option.isSome_none, Bool.false_eq_true,
      if_false, freshPS]
  have hl1 : (room_join rooms code name suffix1).1.lookup code = some { room with players := insertKV name freshPS room.players } := by
    rw [h1]
    exact lookup_insertKV_self code _ rooms
  have hp1 : ((insertKV name freshPS room.players).lookup name).isSome := by
    rw [lookup_insertKV_self]
    rfl
  have h2gen : ∀ rooms1 : Rooms, rooms1.lookup code = some { room with players := insertKV name freshPS room.players } → room_join rooms1 code name suffix2 = (insertKV code { room with players := insertKV (name ++ "_" ++ suffix2) freshPS (insertKV name freshPS room.players) } rooms1, JoinResult.ok (name ++ "_" ++ suffix2)) := by
    intro rooms1 hl
    simp only [room_join, hl, e0, lookup_insertKV_self, Option.isSome_some, if_true, freshPS]
  have h2 := h2gen (room_join rooms code name suffix1).1 hl1
  refine ⟨by rw [h1], by rw [h2], suffixed_name_ne name suffix2,
    ⟨suffix2, rfl, hdigits.1, hdigits.2⟩, ?_, ?_⟩
  · rw [h2]
    show (List.lookup code (insertKV code _ _)).map _ = _
    rw [lookup_insertKV_self]
    show some ((insertKV (name ++ "_" ++ suffix2) freshPS (insertKV name freshPS room.players)).lookup name, (insertKV (name ++ "_" ++ suffix2) freshPS (insertKV name freshPS room.players)).lookup (name ++ "_" ++ suffix2)) = _
    rw [lookup_insertKV_ne _ name _ _ (Ne.symm (suffixed_name_ne name suffix2))]
    rw [lookup_insertKV_self, lookup_insertKV_self]
  · rw [h2]
    show (List.lookup code (insertKV code _ _)).map _ = _
    rw [lookup_insertKV_self]
    show some (insertKV (name ++ "_" ++ suffix2) freshPS (insertKV name freshPS room.players)).length = _
    have hfr : (insertKV name freshPS room.players).lookup (name ++ "_" ++ suffix2) = none := by
      rw [lookup_insertKV_ne _ _ _ _ (suffixed_name_ne name suffix2)]
      exact hfresh2
    rw [length_insertKV_of_none _ _ _ hfr, length_insertKV_of_none _ _ _ hfresh]

/-- Witness for C6: Alice joins twice; the second join stores Alice_042. -/
theorem join_duplicate_name_suffixed_witness :
    emptyRooms.lookup "J" = some emptyRoom
    ∧ (room_join (room_join emptyRooms "J" "Alice" "123").1 "J" "Alice" "042").2
        = JoinResult.ok ("Alice" ++ "_" ++ "042") :=
  ⟨by decide,
   (join_duplicate_name_suffixed emptyRooms "J" emptyRoom "Alice" "123" "042"
     (by decide) (by decide) (by decide) (by decide) (by decide)
     ⟨by decide, by decide⟩).2.1⟩


/-! ### C7: single-player total and score -/

/-- C7: the reported total is exactly the client-declared total independent
of the answers, the score counts exactly the produced entries whose
selection equals their correct value, and a form without q-fields produces
no entries and score zero while keeping the declared total. -/
theorem single_player_score_total (total : Nat) (form : Form) :
    (single_player_results total form).2.2 = total
    ∧ (single_player_results total form).2.1
        = ((single_player_results total form).1.filter
            (fun a => a.selected == a.correct)).length
    ∧ (qKeys form = [] →
        (single_player_results total form).1 = []
        ∧ (single_player_results total form).2.1 = 0) := by
  refine ⟨rfl, ?_, ?_⟩
  · show ((single_player_results total form).1.filter (fun a => a.is_correct)).length = _
    congr 1
    apply List.filter_congr
    intro a ha
    obtain ⟨val, hv⟩ := single_answers_entry_shape total form a ha
    rw [hv]
    exact mkAnswerEntry_is_correct_eq val
  · intro h
    constructor
    · show (sortStr (qKeys form)).filterMap _ = []
      rw [h]
      rfl
    · show ((single_player_results total form).1.filter (fun a => a.is_correct)).length = 0
      have he : (single_player_results total form).1 = [] := by
        show (sortStr (qKeys form)).filterMap _ = []
        rw [h]
        rfl
      rw [he]
      rfl

/-- Witness for C7: no submission with a declared total of 10 scores 0 of 10. -/
theorem single_player_score_total_witness :
    qKeys [] = []
    ∧ (single_player_results 10 []).1 = []
    ∧ (single_player_results 10 []).2.1 = 0
    ∧ (single_player_results 10 []).2.2 = 10 :=
  ⟨rfl, ((single_player_score_total 10 []).2.2 rfl).1,
   ((single_player_score_total 10 []).2.2 rfl).2, (single_player_score_total 10 []).1⟩


/-! ### C8: failed lookups leave the registry unchanged -/

/-- C8: an unknown room code makes the join page, join, submit and results
fail without changing the registry; a known room with an absent or unknown
username makes submit fail, again returning the registry unchanged.  The
page handlers room_join_page and room_results are functions of the registry
alone and never produce a new registry at all. -/
theorem failed_lookup_leaves_registry_unchanged (rooms : Rooms) (code : String)
    (username suffix : String) (form : Form) :
    (rooms.lookup code = none →
      room_join_page rooms code = PageResult.invalidRoom
      ∧ room_join rooms code username suffix = (rooms, JoinResult.invalidRoom)
      ∧ room_submit rooms code form = (rooms, SubmitResult.invalidRoom)
      ∧ room_results rooms code (form.lookup "username") = ResultsPage.invalidRoom)
    ∧ (∀ room, rooms.lookup code = some room →
        (form.lookup "username" = none →
          room_submit rooms code form = (rooms, SubmitResult.invalidPlayer))
        ∧ (∀ u, form.lookup "username" = some u → room.players.lookup u = none →
          room_submit rooms code form = (rooms, SubmitResult.invalidPlayer))) := by
  constructor
  · intro h
    exact ⟨by simp [room_join_page, h], by simp [room_join, h],
      by simp [room_submit, h], by simp [room_results, h]⟩
  · intro room hroom
    constructor
    · intro hu
      simp [room_submit, hroom, hu]
    · intro u hu hp
      simp [room_submit, hroom, hu, hp]

/-- Witness for C8: the code BADCOD is not registered. -/
theorem failed_lookup_witness :
    (sampleRooms.lookup "BADCOD" = none)
    ∧ room_join sampleRooms "BADCOD" "alice" "123"
        = (sampleRooms, JoinResult.invalidRoom) :=
  ⟨by decide,
   ((failed_lookup_leaves_registry_unchanged sampleRooms "BADCOD" "alice" "123" []).1
     (by decide)).2.1⟩

/-! ### C9: the question list never mutates -/

/-- C9: whatever join or submit does, the question list of every registered
room is unchanged (the results and join pages are read-only by shape: they
are functions of the registry returning only a rendered page). -/
theorem questions_never_mutated (rooms : Rooms) (code c : String)
    (username suffix : String) (form : Form) :
    ((room_join rooms code username suffix).1.lookup c).map Room.questions
      = (rooms.lookup c).map Room.questions
    ∧ ((room_submit rooms code form).1.lookup c).map Room.questions
      = (rooms.lookup c).map Room.questions := by
  constructor
  · cases hroom : rooms.lookup code with
    | none => simp [room_join, hroom]
    | some room =>
      simp only [room_join, hroom]
      by_cases hc : c = code
      · subst hc
        rw [lookup_insertKV_self, hroom]
        rfl
      · rw [lookup_insertKV_ne _ _ _ _ hc]
  · cases hroom : rooms.lookup code with
    | none => simp [room_submit, hroom]
    | some room =>
      cases hu : form.lookup "username" with
      | none => simp [room_submit, hroom, hu]
      | some u =>
        cases hp : (room.players.lookup u).isSome with
        | false => simp [room_submit, hroom, hu, hp]
        | true =>
          rw [room_submit_ok rooms code form room u hroom hu hp]
          by_cases hc : c = code
          · subst hc
            rw [lookup_insertKV_self, hroom]
            rfl
          · rw [lookup_insertKV_ne _ _ _ _ hc]


/-! ### C10: scores count stored answers and are unbounded -/

/-- C10: every leaderboard row belongs to a registered player and its score
is the count of is_correct entries in that player's stored answers dict;
the count is taken over whatever q-prefixed fields the client submitted
with client-supplied correct values, so a submission with three matching
q-fields into a one-question room is reported with score 3 > 1. -/
theorem score_counts_stored_answers_unbounded :
    (∀ (room : Room) (e : LBEntry), e ∈ leaderboard room →
      ∃ p, p ∈ room.players
        ∧ e = { username := p.1, score := countCorrect p.2.answers,
                submitted := p.2.submitted })
    ∧ room_results (room_submit sampleRooms "R"
        [("username", "alice"), ("q0", "Q||A||A"), ("q1", "Q||A||A"),
         ("q2", "Q||A||A")]).1 "R" none
      = ResultsPage.page [{ username := "alice", score := 3, submitted := true }] [] 1
    ∧ sampleRoom.questions.length < 3 := by
  refine ⟨?_, by decide, by decide⟩
  intro room e he
  have hm : e ∈ joinOrderEntries room :=
    (sortDesc_perm (joinOrderEntries room)).mem_iff.mp he
  rcases List.mem_map.mp hm with ⟨p, hp, he2⟩
  exact ⟨p, hp, he2.symm⟩

/-- Witness for C10: the row of player A in the tied room comes from the
stored player entry with its stored-answer count. -/
theorem score_counts_stored_answers_witness :
    ({ username := "A", score := 1, submitted := true } : LBEntry) ∈ leaderboard tieRoom
    ∧ ∃ p, p ∈ tieRoom.players
        ∧ ({ username := "A", score := 1, submitted := true } : LBEntry)
          = { username := p.1, score := countCorrect p.2.answers,
              submitted := p.2.submitted } :=
  ⟨by decide,
   score_counts_stored_answers_unbounded.1 tieRoom
     { username := "A", score := 1, submitted := true } (by decide)⟩

end AiQuizWeb










